import Mathlib

set_option maxRecDepth 40000

/-!
Verification of the hypercert retrieval and submission-validation logic of
the voicedeck fork.

The retrieval unit (`src/utils/supabase/hypercerts.ts`) is embedded as a
pure function: the two GraphQL effects (`request` for the hyperboard query
and `request` for each per-identifier query) are passed in as explicit
parameters, a JavaScript promise that rejects being an `Except.error` and
one that resolves being an `Except.ok`.  The submission unit
(`src/components/submit/hypercert-form.tsx`) is embedded as a per-field
validator that accumulates field errors, plus the pure metadata transform
performed by `onSubmit` before handing off to the external formatter.
-/

namespace VoiceDeck

/-- A JavaScript `Error` value, abstracted to its message. -/
structure JSError where
  message : String
deriving DecidableEq, Repr

/-! ## Hyperboard response shape

`request(…, getHyperboardsByIdQuery, …)` resolves to an object traversed by
`res.hyperboards?.data?.[0]?.sections?.data?.[0]?.entries.map(e => e.id)`.
Each `?.` point in that chain is an `Option`; `entries` itself is not
optional-chained in the source, so it is a plain list here. -/

structure Entry where
  id : String
deriving DecidableEq, Repr

structure BoardSection where
  entries : List Entry
deriving DecidableEq, Repr

structure Sections where
  data : Option (List BoardSection)
deriving DecidableEq, Repr

structure Hyperboard where
  sections : Option Sections
deriving DecidableEq, Repr

structure Hyperboards where
  data : Option (List Hyperboard)
deriving DecidableEq, Repr

structure HyperboardResponse where
  hyperboards : Option Hyperboards
deriving DecidableEq, Repr

/-- The identifier extraction
`res.hyperboards?.data?.[0]?.sections?.data?.[0]?.entries.map(e => e.id)`:
`none` is JavaScript `undefined` (some link of the optional chain missing);
an empty entries list yields `some []`, not `none`. -/
def extractIds (res : HyperboardResponse) : Option (List String) :=
  ((((res.hyperboards.bind (fun hb => hb.data)).bind List.head?).bind
      (fun board => board.sections)).bind (fun s => s.data)).bind
    (fun sections0 => (List.head? sections0).map
      (fun sec => sec.entries.map (fun entry => entry.id)))

/-! ## Per-identifier response shape

`request(…, getHypercertsByHypercertIdQuery, …)` resolves to an object used
as `hypercert?.hypercerts?.data?.[0] || null`.  The record payload is opaque
to this layer, hence the type parameter `α`. -/

structure HypercertsData (α : Type) where
  data : Option (List α)
deriving DecidableEq, Repr

structure HypercertResponse (α : Type) where
  hypercerts : Option (HypercertsData α)
deriving DecidableEq, Repr

/-- `hypercert?.hypercerts?.data?.[0] || null` — the first record of the
per-identifier response, or `none` when the list is empty or missing. -/
def firstRecord {α : Type} (h : HypercertResponse α) : Option α :=
  (h.hypercerts.bind (fun hc => hc.data)).bind List.head?

/-- `await Promise.all(ids.map(perId))`: resolves to the responses in input
order, or rejects with a rejection of one of the requests.  (JavaScript
picks the temporally first rejection; the model picks the first in list
order, which is one of the rejected requests' errors.) -/
def awaitAll {α : Type} (perId : String → Except JSError (HypercertResponse α)) :
    List String → Except JSError (List (HypercertResponse α))
  | [] => Except.ok []
  | i :: rest =>
    match perId i with
    | Except.error e => Except.error e
    | Except.ok r =>
      match awaitAll perId rest with
      | Except.error e => Except.error e
      | Except.ok rs => Except.ok (r :: rs)

/-- The object literal returned by `fetchHypercerts`: either the `data`
field or the `error` field is set.  Both are kept as options so that the
"never both populated" contract is a theorem about the function rather than
a consequence of the type. -/
structure FetchResult (α : Type) where
  data : Option (List α)
  error : Option JSError
deriving DecidableEq, Repr

/-- The fixed diagnostic message of the explicit not-found error. -/
def notFoundMessage : String := "No hypercert IDs found (status code: 404)"

/-- `fetchHypercerts` from `src/utils/supabase/hypercerts.ts`.

The outer `try` block:
* awaits the hyperboard query (`boardRes`); a rejection is caught and
  becomes `{ error }`;
* extracts the identifier list; `if (!hypercertIds)` throws the not-found
  error, caught below — note that in JavaScript `![]` is `false`, so only
  an `undefined` chain (`extractIds … = none`) triggers it;
* awaits `Promise.all` over the per-identifier requests; a rejection is
  caught and becomes `{ error }`;
* maps each response to its first record (`|| null`) and filters out the
  nulls, returning `{ data }`. -/
def fetchHypercerts {α : Type} (boardRes : Except JSError HyperboardResponse)
    (perId : String → Except JSError (HypercertResponse α)) : FetchResult α :=
  match boardRes with
  | Except.error e => ⟨none, some e⟩
  | Except.ok res =>
    match extractIds res with
    | none => ⟨none, some ⟨notFoundMessage⟩⟩
    | some hypercertIds =>
      match awaitAll perId hypercertIds with
      | Except.error e => ⟨none, some e⟩
      | Except.ok hypercertsData =>
        ⟨some ((hypercertsData.map firstRecord).filterMap (fun x => x)), none⟩

/-! ## Submission schema (`HypercertMintSchema`)

The zod schema of `src/components/submit/hypercert-form.tsx` is embedded as
one validator per field returning the field's issues (empty list = field
accepted); the whole-draft validator concatenates them in schema key order,
matching zod's accumulate-all-issues behaviour, and applies the
`contributors` transform on success.  Dates are JavaScript `Date` values
abstracted to their millisecond timestamps (`Int`), which is what `<=` and
`getTime()` observe. -/

/-- A zod issue: the offending field's path and the configured message. -/
structure FieldError where
  path : String
  message : String
deriving DecidableEq, Repr

/-- The `projectDates` object: a `from`/`to` pair of dates (millisecond
timestamps). -/
structure DateRange where
  «from» : Int
  «to» : Int
deriving DecidableEq, Repr

/-- The raw form draft handed to the schema: the form's field values with
the types `useForm` maintains. -/
structure Draft where
  title : String
  description : String
  link : String
  cardImage : String
  logo : String
  banner : String
  tags : String
  projectDates : DateRange
  workStartDate : Int
  workEndDate : Int
  contributors : String
  acceptTerms : Bool
  confirmContributorsPermission : Bool
deriving DecidableEq, Repr

/-- Worker of `jsSplit`, walking the character list with explicit fuel so
that the recursion is structural (each step consumes at least one character,
so `s.length + 1` fuel never runs out). -/
def jsSplitAux (sep : List Char) : Nat → List Char → List Char → List (List Char)
  | 0, s, cur => [cur.reverse ++ s]
  | Nat.succ fuel, s, cur =>
    match s with
    | [] => [cur.reverse]
    | c :: rest =>
      if sep.isPrefixOf (c :: rest) then
        cur.reverse :: jsSplitAux sep fuel (List.drop (sep.length - 1) rest) []
      else jsSplitAux sep fuel rest (c :: cur)

/-- JavaScript `String.prototype.split` for a nonempty literal separator:
splits at each leftmost occurrence of `sep`; `"".split(sep)` is `[""]`, and
a trailing separator contributes a final empty segment. -/
def jsSplit (sep : String) (s : String) : List String :=
  (jsSplitAux sep.data (s.data.length + 1) s.data []).map String.mk

/-- JavaScript `String.prototype.trim`: strips leading and trailing
whitespace (the ASCII whitespace characters suffice for this schema). -/
def jsTrim (s : String) : String :=
  String.mk
    (((s.data.dropWhile Char.isWhitespace).reverse.dropWhile Char.isWhitespace).reverse)

/-- Modelled from the spec: the schema delegates URL checking to the
validation library's `url()` refinement, whose implementation is not part
of the sources; the spec requires only a "well-formed URL".  Modelled as a
nonempty alphabetic scheme, the literal `://`, and a nonempty remainder. -/
def isValidURL (s : String) : Bool :=
  match jsSplit "://" s with
  | [scheme, rest] => !scheme.data.isEmpty && scheme.data.all Char.isAlpha &&
      !rest.data.isEmpty
  | _ => false

/-- Hexadecimal digit in either case. -/
def isHexDigit (c : Char) : Bool :=
  c.isDigit || ('a' ≤ c && c ≤ 'f') || ('A' ≤ c && c ≤ 'F')

/-- Modelled from the spec: `isValidEthereumAddress` is imported from
`@/lib/utils`, which is not among the sources; the spec describes the check
as an Ethereum-style address pattern — `0x` followed by 40 hexadecimal
characters. -/
def isValidEthereumAddress (s : String) : Bool :=
  "0x".data.isPrefixOf s.data && s.length == 42 && (s.data.drop 2).all isHexDigit

/-- `title: z.string().min(1, …).max(50, …)` — each check contributes its
own issue. -/
def validateTitle (s : String) : List FieldError :=
  (if s.length < 1 then [⟨"title", "Hypercert Name is required"⟩] else []) ++
  (if 50 < s.length then
    [⟨"title", "Hypercert Name must be less than 50 characters"⟩] else [])

/-- `description: z.string().min(10, …).max(500, …)`. -/
def validateDescription (s : String) : List FieldError :=
  (if s.length < 10 then
    [⟨"description", "Description is required and must be at least 10 characters"⟩]
   else []) ++
  (if 500 < s.length then
    [⟨"description", "Description must be less than 500 characters"⟩] else [])

/-- `z.string().url(message)` applied to one of the URL fields. -/
def validateUrlField (field msg : String) (s : String) : List FieldError :=
  if isValidURL s then [] else [⟨field, msg⟩]

/-- The configured message of the `tags` refinement. -/
def tagsMessage : String :=
  "Tags must must not be empty, Multiple tags must be separated by commas"

/-- `tags: z.string().refine(val => val.split(",").every(tag => tag.trim() !== ""), …)`. -/
def validateTags (s : String) : List FieldError :=
  if (jsSplit "," s).all (fun tag => jsTrim tag != "") then [] else
    [⟨"tags", tagsMessage⟩]

/-- `projectDates: z.object({from: z.date(), to: z.date()}).refine(data => data.from <= data.«to», …)`. -/
def validateProjectDates (r : DateRange) : List FieldError :=
  if r.«from» ≤ r.«to» then [] else
    [⟨"projectDates", "From date must be before to date"⟩]

/-- The configured message of the `contributors` refinement. -/
def contributorsMessage : String :=
  "Each value must be a valid Ethereum address separated by a comma and a space."

/-- The `contributors` refinement: split on `", "`, trim each piece, and
require every piece to pass `isValidEthereumAddress`. -/
def validateContributors (s : String) : List FieldError :=
  if ((jsSplit ", " s).map jsTrim).all isValidEthereumAddress then []
  else [⟨"contributors", contributorsMessage⟩]

/-- The `contributors` transform applied after a successful refinement:
`value.split(",").map(addr => addr.trim())` — note it splits on `","`,
unlike the refinement's `", "`. -/
def transformContributors (s : String) : List String :=
  (jsSplit "," s).map jsTrim

/-- The schema's output type (`z.infer<typeof HypercertMintSchema>`):
the draft with `contributors` transformed into a list of strings. -/
structure Validated where
  title : String
  description : String
  link : String
  cardImage : String
  logo : String
  banner : String
  tags : String
  projectDates : DateRange
  workStartDate : Int
  workEndDate : Int
  contributors : List String
  acceptTerms : Bool
  confirmContributorsPermission : Bool
deriving DecidableEq, Repr

/-- All issues of a draft, in schema key order (zod checks every field and
accumulates every issue). -/
def draftErrors (d : Draft) : List FieldError :=
  validateTitle d.title ++
  validateDescription d.description ++
  validateUrlField "link" "Link must be a valid URL" d.link ++
  validateUrlField "cardImage" "Card image not generated" d.cardImage ++
  validateUrlField "logo" "Logo Image must be a valid URL" d.logo ++
  validateUrlField "banner" "Background Banner Image must be a valid URL" d.banner ++
  validateTags d.tags ++
  validateProjectDates d.projectDates ++
  validateContributors d.contributors

/-- Parsing a draft against `HypercertMintSchema`: every field is checked
independently and all issues are collected; when no issue arises the
validated values (with the `contributors` transform applied) are returned. -/
def validate (d : Draft) : Except (List FieldError) Validated :=
  if draftErrors d = [] then
    Except.ok
      { title := d.title
        description := d.description
        link := d.link
        cardImage := d.cardImage
        logo := d.logo
        banner := d.banner
        tags := d.tags
        projectDates := d.projectDates
        workStartDate := d.workStartDate
        workEndDate := d.workEndDate
        contributors := transformContributors d.contributors
        acceptTerms := d.acceptTerms
        confirmContributorsPermission := d.confirmContributorsPermission }
  else Except.error (draftErrors d)

/-! ## Metadata transform (`onSubmit`)

`onSubmit` builds the argument object of `formatHypercertData` from the
validated values plus the badge list maintained by the form.  `getTime() /
1000` is JavaScript number division, so the timeframes are rationals. -/

/-- The object handed to `formatHypercertData` in `onSubmit`. -/
structure MetadataInput where
  name : String
  description : String
  image : String
  external_url : String
  version : String
  properties : List String
  impactScope : List String
  excludedImpactScope : List String
  workScope : List String
  excludedWorkScope : List String
  rights : List String
  excludedRights : List String
  workTimeframeStart : Rat
  workTimeframeEnd : Rat
  impactTimeframeStart : Rat
  impactTimeframeEnd : Rat
  contributors : List String
deriving DecidableEq, Repr

/-- The body of `onSubmit` up to the external `formatHypercertData` call:
the metadata draft spread together with the fixed and derived fields. -/
def toMetadata (values : Validated) (badges : List String) : MetadataInput :=
  { name := values.title
    description := values.description
    image := values.cardImage
    external_url := values.link
    version := "2.0"
    properties := []
    impactScope := ["all"]
    excludedImpactScope := []
    workScope := badges
    excludedWorkScope := []
    rights := ["Public Display"]
    excludedRights := []
    workTimeframeStart := (values.projectDates.«from» : Rat) / 1000
    workTimeframeEnd := (values.projectDates.«to» : Rat) / 1000
    impactTimeframeStart := (values.projectDates.«from» : Rat) / 1000
    impactTimeframeEnd := (values.projectDates.«to» : Rat) / 1000
    contributors := values.contributors }

/-! ## Generic helpers -/

instance {ε α : Type} [DecidableEq ε] [DecidableEq α] : DecidableEq (Except ε α) := fun
  | Except.error a, Except.error b =>
    if h : a = b then Decidable.isTrue (by rw [h])
    else Decidable.isFalse (by intro hh; cases hh; exact h rfl)
  | Except.error _, Except.ok _ => Decidable.isFalse (by intro hh; cases hh)
  | Except.ok _, Except.error _ => Decidable.isFalse (by intro hh; cases hh)
  | Except.ok a, Except.ok b =>
    if h : a = b then Decidable.isTrue (by rw [h])
    else Decidable.isFalse (by intro hh; cases hh; exact h rfl)

/-- If some identifier's request rejects, the `Promise.all` stage rejects
with one of the rejections. -/
theorem awaitAll_error_total {α : Type}
    (perId : String → Except JSError (HypercertResponse α)) :
    ∀ ids : List String, (∃ i ∈ ids, ∃ e, perId i = Except.error e) →
      ∃ e, awaitAll perId ids = Except.error e ∧
        ∃ i ∈ ids, perId i = Except.error e := by
  intro ids
  induction ids with
  | nil => rintro ⟨i, hi, -⟩; cases hi
  | cons a rest ih =>
    rintro ⟨i, hi, e, he⟩
    cases ha : perId a with
    | error ea =>
      exact ⟨ea, by simp [awaitAll, ha], a, List.mem_cons_self a rest, ha⟩
    | ok r =>
      have hir : i ∈ rest := by
        rcases List.mem_cons.mp hi with h | h
        · subst h; rw [ha] at he; cases he
        · exact h
      obtain ⟨e2, hA, i2, hi2, he2⟩ := ih ⟨i, hir, e, he⟩
      exact ⟨e2, by simp [awaitAll, ha, hA], i2, List.mem_cons_of_mem a hi2, he2⟩

/-- If every identifier's request resolves, the `Promise.all` stage resolves
and the first-record-then-filter aggregation equals the direct traversal of
the identifier list. -/
theorem awaitAll_ok_filterMap {α : Type}
    (perId : String → Except JSError (HypercertResponse α)) :
    ∀ ids : List String, (∀ i ∈ ids, ∃ r, perId i = Except.ok r) →
      ∃ rs, awaitAll perId ids = Except.ok rs ∧
        (rs.map firstRecord).filterMap (fun x => x) =
          ids.filterMap (fun i => match perId i with
            | Except.ok r => firstRecord r
            | Except.error _ => none) := by
  intro ids
  induction ids with
  | nil => intro _; exact ⟨[], rfl, by simp⟩
  | cons a rest ih =>
    intro h
    obtain ⟨r, hr⟩ := h a (List.mem_cons_self a rest)
    obtain ⟨rs, hrs, heq⟩ := ih (fun i hi => h i (List.mem_cons_of_mem a hi))
    refine ⟨r :: rs, by simp [awaitAll, hr, hrs], ?_⟩
    cases hfr : firstRecord r <;>
      simp [List.filterMap_cons, hr, hfr, heq]

/-! ## Claims about the retrieval unit -/

/-- C1 (counterexample): a hyperboard response whose first section has an
empty entries list makes `fetchHypercerts` return a success envelope with an
empty record list — not the claimed "not found" failure envelope — because
`![]` is `false` in JavaScript. -/
theorem fetchHypercerts_empty_entries_returns_success :
    extractIds ⟨some ⟨some [⟨some ⟨some [⟨[]⟩]⟩⟩]⟩⟩ = some [] ∧
    fetchHypercerts (α := Nat) (Except.ok ⟨some ⟨some [⟨some ⟨some [⟨[]⟩]⟩⟩]⟩⟩)
        (fun _ => Except.error ⟨"unreachable"⟩) =
      ⟨some [], none⟩ :=
  ⟨rfl, rfl⟩

/-- C1 (amended): when the optional chain yields no identifier list (missing
hyperboard, missing hyperboards data, missing section, or missing sections
data) `fetchHypercerts` returns the failure envelope with the fixed
"not found" message, issuing no per-identifier request; an *empty* entries
list instead yields a success envelope with an empty record list, likewise
without per-identifier requests (the result does not depend on the
per-identifier environment in either case). -/
theorem fetchHypercerts_missing_path_not_found {α : Type}
    (res : HyperboardResponse)
    (perId perId2 : String → Except JSError (HypercertResponse α)) :
    (extractIds res = none →
      fetchHypercerts (Except.ok res) perId = ⟨none, some ⟨notFoundMessage⟩⟩) ∧
    (extractIds res = some [] →
      fetchHypercerts (Except.ok res) perId = ⟨some [], none⟩) ∧
    (extractIds res = none ∨ extractIds res = some [] →
      fetchHypercerts (Except.ok res) perId =
        fetchHypercerts (Except.ok res) perId2) := by
  refine ⟨fun h => ?_, fun h => ?_, fun h => ?_⟩
  · simp [fetchHypercerts, h]
  · simp [fetchHypercerts, h, awaitAll]
  · rcases h with h | h <;> simp [fetchHypercerts, h, awaitAll]

/-- C1 (witness for the amended claim): a response carrying a hyperboard
with no sections data hits the "not found" branch. -/
theorem fetchHypercerts_missing_path_not_found_witness :
    fetchHypercerts (α := Nat)
        (Except.ok ⟨some ⟨some [⟨some ⟨none⟩⟩]⟩⟩)
        (fun _ => Except.error ⟨"unreachable"⟩) =
      ⟨none, some ⟨notFoundMessage⟩⟩ :=
  (fetchHypercerts_missing_path_not_found ⟨some ⟨some [⟨some ⟨none⟩⟩]⟩⟩
    (fun _ => Except.error ⟨"unreachable"⟩)
    (fun _ => Except.error ⟨"unreachable"⟩)).1 rfl

/-- C2: every raised exception — a rejected hyperboard query, the explicit
not-found error, or a rejected per-identifier request — is converted into a
failure envelope carrying that error value, with no (partial) record list. -/
theorem fetchHypercerts_error_envelope {α : Type}
    (boardRes : Except JSError HyperboardResponse)
    (perId : String → Except JSError (HypercertResponse α)) :
    (∀ e, boardRes = Except.error e →
      fetchHypercerts boardRes perId = ⟨none, some e⟩) ∧
    (∀ res, boardRes = Except.ok res → extractIds res = none →
      fetchHypercerts boardRes perId = ⟨none, some ⟨notFoundMessage⟩⟩) ∧
    (∀ res ids, boardRes = Except.ok res → extractIds res = some ids →
      (∃ i ∈ ids, ∃ e, perId i = Except.error e) →
      (fetchHypercerts boardRes perId).data = none ∧
      ∃ e, (∃ i ∈ ids, perId i = Except.error e) ∧
        (fetchHypercerts boardRes perId).error = some e) := by
  refine ⟨fun e he => ?_, fun res hb hex => ?_, fun res ids hb hex hrej => ?_⟩
  · subst he; simp [fetchHypercerts]
  · subst hb; simp [fetchHypercerts, hex]
  · subst hb
    obtain ⟨e, hA, i, hi, he⟩ := awaitAll_error_total perId ids hrej
    have hfe : fetchHypercerts (Except.ok res) perId = ⟨none, some e⟩ := by
      simp [fetchHypercerts, hex, hA]
    exact ⟨by rw [hfe], e, ⟨i, hi, he⟩, by rw [hfe]⟩

/-- C2 (witness): a rejected hyperboard query is carried through verbatim,
and a response whose identifier list contains an identifier with a rejecting
request produces a failure envelope with no record list. -/
theorem fetchHypercerts_error_envelope_witness :
    fetchHypercerts (α := Nat) (Except.error ⟨"network failure"⟩)
        (fun _ => Except.ok ⟨none⟩) = ⟨none, some ⟨"network failure"⟩⟩ ∧
    (fetchHypercerts (α := Nat)
        (Except.ok ⟨some ⟨some [⟨some ⟨some [⟨[⟨"a"⟩]⟩]⟩⟩]⟩⟩)
        (fun _ => Except.error ⟨"request rejected"⟩)).data = none :=
  ⟨(fetchHypercerts_error_envelope (Except.error ⟨"network failure"⟩)
      (fun _ => Except.ok ⟨none⟩)).1 ⟨"network failure"⟩ rfl,
   ((fetchHypercerts_error_envelope
      (Except.ok ⟨some ⟨some [⟨some ⟨some [⟨[⟨"a"⟩]⟩]⟩⟩]⟩⟩)
      (fun _ => Except.error ⟨"request rejected"⟩)).2.2
      ⟨some ⟨some [⟨some ⟨some [⟨[⟨"a"⟩]⟩]⟩⟩]⟩⟩ ["a"] rfl rfl
      ⟨"a", List.mem_singleton.mpr rfl, ⟨"request rejected"⟩, rfl⟩).1⟩

/-- C3: the returned envelope has exactly one of the `data` and `error`
fields populated, for every environment. -/
theorem fetchHypercerts_envelope_exclusive {α : Type}
    (boardRes : Except JSError HyperboardResponse)
    (perId : String → Except JSError (HypercertResponse α)) :
    ((fetchHypercerts boardRes perId).data.isSome = true ∧
      (fetchHypercerts boardRes perId).error = none) ∨
    ((fetchHypercerts boardRes perId).data = none ∧
      (fetchHypercerts boardRes perId).error.isSome = true) := by
  cases boardRes with
  | error e => right; simp [fetchHypercerts]
  | ok res =>
    cases hex : extractIds res with
    | none => right; simp [fetchHypercerts, hex]
    | some ids =>
      cases hA : awaitAll perId ids with
      | error e => right; simp [fetchHypercerts, hex, hA]
      | ok rs => left; simp [fetchHypercerts, hex, hA]

/-- C4: when the hyperboard response yields a non-empty identifier list and
every per-identifier request resolves, the success envelope traverses the
identifier list in order, keeping each identifier's first record and
omitting identifiers whose response has an empty or missing record list. -/
theorem fetchHypercerts_order_and_omission {α : Type}
    (res : HyperboardResponse) (ids : List String)
    (perId : String → Except JSError (HypercertResponse α))
    (h1 : extractIds res = some ids) (h2 : ids ≠ [])
    (h3 : ∀ i ∈ ids, ∃ r, perId i = Except.ok r) :
    fetchHypercerts (Except.ok res) perId =
      ⟨some (ids.filterMap (fun i => match perId i with
        | Except.ok r => firstRecord r
        | Except.error _ => none)), none⟩ := by
  obtain ⟨rs, hrs, heq⟩ := awaitAll_ok_filterMap perId ids h3
  simp [fetchHypercerts, h1, hrs, heq]

/-- C4 (witness): three identifiers, the middle one resolving to an empty
record list, produce the first and third records in order. -/
theorem fetchHypercerts_order_and_omission_witness :
    fetchHypercerts (α := Nat)
        (Except.ok ⟨some ⟨some [⟨some ⟨some [⟨[⟨"a"⟩, ⟨"b"⟩, ⟨"c"⟩]⟩]⟩⟩]⟩⟩)
        (fun i =>
          if i = "a" then Except.ok ⟨some ⟨some [1]⟩⟩
          else if i = "b" then Except.ok ⟨some ⟨some []⟩⟩
          else if i = "c" then Except.ok ⟨some ⟨some [3]⟩⟩
          else Except.error ⟨"unknown id"⟩) =
      ⟨some [1, 3], none⟩ := by
  have h := fetchHypercerts_order_and_omission
    ⟨some ⟨some [⟨some ⟨some [⟨[⟨"a"⟩, ⟨"b"⟩, ⟨"c"⟩]⟩]⟩⟩]⟩⟩
    ["a", "b", "c"]
    (fun i =>
      if i = "a" then Except.ok ⟨some ⟨some [1]⟩⟩
      else if i = "b" then Except.ok ⟨some ⟨some []⟩⟩
      else if i = "c" then Except.ok ⟨some ⟨some [3]⟩⟩
      else Except.error ⟨"unknown id"⟩)
    rfl (by decide)
    (by
      intro i hi
      fin_cases hi <;> exact ⟨_, rfl⟩)
  exact h.trans (by decide)

/-! ## Claims about the submission schema -/

/-- When some field error is present, parsing reports the accumulated issue
list as the failure. -/
theorem validate_error_of_mem (d : Draft) (e : FieldError)
    (h : e ∈ draftErrors d) :
    validate d = Except.error (draftErrors d) := by
  have hne : draftErrors d ≠ [] := by
    intro hnil; rw [hnil] at h; cases h
  unfold validate
  rw [if_neg hne]

/-- The first contributor address of the round-trip scenario. -/
def addrA : String := "0xaaaaaaaaaaaaaaaaaaaaaaaaaaaaaaaaaaaaaaaa"

/-- The second contributor address of the round-trip scenario. -/
def addrB : String := "0xbbbbbbbbbbbbbbbbbbbbbbbbbbbbbbbbbbbbbbbb"

/-- A draft meeting every condition of the round-trip scenario except that
its description, while well over 10 characters, is 501 characters long. -/
def overlongDescriptionDraft : Draft :=
  { title := "Edge Esmeralda Hypercert"
    description := String.mk (List.replicate 501 'd')
    link := "https://example.com"
    cardImage := "https://example.com/card.png"
    logo := "https://example.com/logo.png"
    banner := "https://example.com/banner.png"
    tags := "impact, climate"
    projectDates := ⟨1717286400000, 1719705600000⟩
    workStartDate := 1717286400000
    workEndDate := 1719705600000
    contributors := addrA ++ ", " ++ addrB
    acceptTerms := true
    confirmContributorsPermission := false }

/-- C5 (counterexample): a draft satisfying every stated condition — the
exact title, a description of at least 10 characters, well-formed URLs, the
exact tags, an ordered date range and the two-address contributors string —
is rejected, because its description exceeds the schema's 500-character
upper bound, which the stated conditions do not exclude. -/
theorem validate_overlong_description_counterexample :
    overlongDescriptionDraft.title = "Edge Esmeralda Hypercert" ∧
    10 ≤ overlongDescriptionDraft.description.length ∧
    isValidURL overlongDescriptionDraft.link = true ∧
    isValidURL overlongDescriptionDraft.logo = true ∧
    isValidURL overlongDescriptionDraft.banner = true ∧
    isValidURL overlongDescriptionDraft.cardImage = true ∧
    overlongDescriptionDraft.tags = "impact, climate" ∧
    overlongDescriptionDraft.projectDates.«from» ≤
      overlongDescriptionDraft.projectDates.«to» ∧
    overlongDescriptionDraft.contributors = addrA ++ ", " ++ addrB ∧
    validate overlongDescriptionDraft =
      Except.error
        [⟨"description", "Description must be less than 500 characters"⟩] := by
  decide

/-- C5 (amended): with the description additionally bounded by the schema's
500-character maximum, every draft with the stated title, URLs, tags, date
range and contributors string validates, and the validated contributors are
the two trimmed, well-formed addresses in input order. -/
theorem validate_roundtrip (d : Draft)
    (ht : d.title = "Edge Esmeralda Hypercert")
    (hd1 : 10 ≤ d.description.length) (hd2 : d.description.length ≤ 500)
    (hlink : isValidURL d.link = true)
    (hcard : isValidURL d.cardImage = true)
    (hlogo : isValidURL d.logo = true)
    (hbanner : isValidURL d.banner = true)
    (htags : d.tags = "impact, climate")
    (hdates : d.projectDates.«from» ≤ d.projectDates.«to»)
    (hcontrib : d.contributors = addrA ++ ", " ++ addrB) :
    ∃ v, validate d = Except.ok v ∧
      v.contributors = [addrA, addrB] ∧
      ([addrA, addrB]).all
        (fun a => (jsTrim a == a) && isValidEthereumAddress a) = true := by
  have h1 : validateTitle d.title = [] := by rw [ht]; decide
  have h2 : validateDescription d.description = [] := by
    unfold validateDescription
    rw [if_neg (by omega), if_neg (by omega)]
    rfl
  have h3 : validateUrlField "link" "Link must be a valid URL" d.link = [] := by
    unfold validateUrlField; rw [if_pos hlink]
  have h4 : validateUrlField "cardImage" "Card image not generated" d.cardImage = [] := by
    unfold validateUrlField; rw [if_pos hcard]
  have h5 : validateUrlField "logo" "Logo Image must be a valid URL" d.logo = [] := by
    unfold validateUrlField; rw [if_pos hlogo]
  have h6 : validateUrlField "banner" "Background Banner Image must be a valid URL"
      d.banner = [] := by
    unfold validateUrlField; rw [if_pos hbanner]
  have h7 : validateTags d.tags = [] := by rw [htags]; decide
  have h8 : validateProjectDates d.projectDates = [] := by
    unfold validateProjectDates; rw [if_pos hdates]
  have h9 : validateContributors d.contributors = [] := by rw [hcontrib]; decide
  have herr : draftErrors d = [] := by
    unfold draftErrors
    rw [h1, h2, h3, h4, h5, h6, h7, h8, h9]
    rfl
  have hTrans : transformContributors d.contributors = [addrA, addrB] := by
    rw [hcontrib]; decide
  refine ⟨{ title := d.title, description := d.description, link := d.link,
            cardImage := d.cardImage, logo := d.logo, banner := d.banner,
            tags := d.tags, projectDates := d.projectDates,
            workStartDate := d.workStartDate, workEndDate := d.workEndDate,
            contributors := transformContributors d.contributors,
            acceptTerms := d.acceptTerms,
            confirmContributorsPermission := d.confirmContributorsPermission },
          ?_, ?_, ?_⟩
  · unfold validate
    rw [if_pos herr]
  · exact hTrans
  · decide

/-- A draft realising the round-trip scenario within the schema's bounds. -/
def roundtripDraft : Draft :=
  { title := "Edge Esmeralda Hypercert"
    description := "A description of at least ten characters."
    link := "https://example.com"
    cardImage := "https://example.com/card.png"
    logo := "https://example.com/logo.png"
    banner := "https://example.com/banner.png"
    tags := "impact, climate"
    projectDates := ⟨1717286400000, 1719705600000⟩
    workStartDate := 1717286400000
    workEndDate := 1719705600000
    contributors := addrA ++ ", " ++ addrB
    acceptTerms := true
    confirmContributorsPermission := false }

/-- C5 (witness for the amended claim). -/
theorem validate_roundtrip_witness :
    ∃ v, validate roundtripDraft = Except.ok v ∧
      v.contributors = [addrA, addrB] ∧
      ([addrA, addrB]).all
        (fun a => (jsTrim a == a) && isValidEthereumAddress a) = true :=
  validate_roundtrip roundtripDraft rfl (by decide) (by decide) (by decide)
    (by decide) (by decide) (by decide) rfl (by decide) rfl

/-- C6: a draft whose project date range has `from > to` is always rejected,
whatever its other fields hold, and the resulting issue is attached to the
`projectDates` path. -/
theorem validate_bad_dates_projectDates_error (d : Draft)
    (h : d.projectDates.«to» < d.projectDates.«from») :
    ∃ errs, validate d = Except.error errs ∧
      (⟨"projectDates", "From date must be before to date"⟩ : FieldError) ∈ errs := by
  have hpd : validateProjectDates d.projectDates =
      [⟨"projectDates", "From date must be before to date"⟩] := by
    unfold validateProjectDates
    rw [if_neg (by omega)]
  have hmem : (⟨"projectDates", "From date must be before to date"⟩ : FieldError) ∈
      draftErrors d := by
    unfold draftErrors
    simp [hpd]
  exact ⟨draftErrors d, validate_error_of_mem d _ hmem, hmem⟩

/-- C6 (witness): an otherwise arbitrary draft with `from = 1 > 0 = to` is
rejected with a `projectDates` issue. -/
theorem validate_bad_dates_projectDates_error_witness :
    ∃ errs,
      validate
        { title := "Edge Esmeralda Hypercert"
          description := "A description of at least ten characters."
          link := "https://example.com"
          cardImage := "https://example.com/card.png"
          logo := "https://example.com/logo.png"
          banner := "https://example.com/banner.png"
          tags := "impact, climate"
          projectDates := ⟨1, 0⟩
          workStartDate := 0
          workEndDate := 0
          contributors := addrA ++ ", " ++ addrB
          acceptTerms := true
          confirmContributorsPermission := true } = Except.error errs ∧
      (⟨"projectDates", "From date must be before to date"⟩ : FieldError) ∈ errs :=
  validate_bad_dates_projectDates_error _ (by decide)

/-- C7: the tags validator accepts a string exactly when every comma segment
is non-empty after trimming, and a string with some all-whitespace segment
makes the whole draft validation fail with a `tags` issue. -/
theorem validate_tags_iff (d : Draft) :
    (validateTags d.tags = [] ↔
      ∀ seg ∈ jsSplit "," d.tags, jsTrim seg ≠ "") ∧
    ((∃ seg ∈ jsSplit "," d.tags, jsTrim seg = "") →
      ∃ errs, validate d = Except.error errs ∧
        (⟨"tags", tagsMessage⟩ : FieldError) ∈ errs) := by
  constructor
  · constructor
    · intro h seg hseg
      by_cases hc : (jsSplit "," d.tags).all (fun tag => jsTrim tag != "") = true
      · have := List.all_eq_true.mp hc seg hseg
        simpa using this
      · unfold validateTags at h
        rw [if_neg hc] at h
        cases h
    · intro hall
      have hc : (jsSplit "," d.tags).all (fun tag => jsTrim tag != "") = true := by
        rw [List.all_eq_true]
        intro seg hseg
        simpa using hall seg hseg
      unfold validateTags
      rw [if_pos hc]
  · rintro ⟨seg, hseg, htrim⟩
    have hc : ¬ ((jsSplit "," d.tags).all (fun tag => jsTrim tag != "") = true) := by
      intro hall
      have := List.all_eq_true.mp hall seg hseg
      simp [htrim] at this
    have htags : validateTags d.tags = [⟨"tags", tagsMessage⟩] := by
      unfold validateTags
      rw [if_neg hc]
    have hmem : (⟨"tags", tagsMessage⟩ : FieldError) ∈ draftErrors d := by
      unfold draftErrors
      simp [htags]
    exact ⟨draftErrors d, validate_error_of_mem d _ hmem, hmem⟩

/-- C7 (witness): the tags string `","` splits into two empty segments and
is rejected with a `tags` issue. -/
theorem validate_tags_iff_witness :
    ∃ errs,
      validate
        { title := ""
          description := ""
          link := ""
          cardImage := ""
          logo := ""
          banner := ""
          tags := ","
          projectDates := ⟨0, 0⟩
          workStartDate := 0
          workEndDate := 0
          contributors := ""
          acceptTerms := false
          confirmContributorsPermission := false } = Except.error errs ∧
      (⟨"tags", tagsMessage⟩ : FieldError) ∈ errs :=
  (validate_tags_iff _).2 ⟨"", by decide, by decide⟩

/-- C8: the transform copies name, description, external link and primary
image from the validated title, description, link and card image; fixes the
version tag, impact scope, rights and the empty property/exclusion lists;
derives all four timeframe bounds from the validated project dates in
seconds since epoch; and passes the validated contributors through. -/
theorem toMetadata_fields (v : Validated) (badges : List String) :
    (toMetadata v badges).name = v.title ∧
    (toMetadata v badges).description = v.description ∧
    (toMetadata v badges).external_url = v.link ∧
    (toMetadata v badges).image = v.cardImage ∧
    (toMetadata v badges).version = "2.0" ∧
    (toMetadata v badges).impactScope = ["all"] ∧
    (toMetadata v badges).rights = ["Public Display"] ∧
    (toMetadata v badges).properties = [] ∧
    (toMetadata v badges).excludedImpactScope = [] ∧
    (toMetadata v badges).excludedWorkScope = [] ∧
    (toMetadata v badges).excludedRights = [] ∧
    (toMetadata v badges).workTimeframeStart = (v.projectDates.«from» : Rat) / 1000 ∧
    (toMetadata v badges).workTimeframeEnd = (v.projectDates.«to» : Rat) / 1000 ∧
    (toMetadata v badges).impactTimeframeStart = (v.projectDates.«from» : Rat) / 1000 ∧
    (toMetadata v badges).impactTimeframeEnd = (v.projectDates.«to» : Rat) / 1000 ∧
    (toMetadata v badges).contributors = v.contributors :=
  ⟨rfl, rfl, rfl, rfl, rfl, rfl, rfl, rfl, rfl, rfl, rfl, rfl, rfl, rfl, rfl, rfl⟩

/-- C9: the empty contributors string splits (on `", "`) into one empty
segment, which is not a well-formed address, so the draft is rejected with a
`contributors` issue — the field is effectively required. -/
theorem validate_empty_contributors_fails (d : Draft)
    (h : d.contributors = "") :
    jsSplit ", " "" = [""] ∧
    isValidEthereumAddress "" = false ∧
    ∃ errs, validate d = Except.error errs ∧
      (⟨"contributors", contributorsMessage⟩ : FieldError) ∈ errs := by
  refine ⟨by decide, by decide, ?_⟩
  have hc : validateContributors d.contributors =
      [⟨"contributors", contributorsMessage⟩] := by
    rw [h]; decide
  have hmem : (⟨"contributors", contributorsMessage⟩ : FieldError) ∈ draftErrors d := by
    unfold draftErrors
    simp [hc]
  exact ⟨draftErrors d, validate_error_of_mem d _ hmem, hmem⟩

/-- C9 (witness): a draft whose contributors string is empty is rejected
with a `contributors` issue. -/
theorem validate_empty_contributors_fails_witness :
    jsSplit ", " "" = [""] ∧
    isValidEthereumAddress "" = false ∧
    ∃ errs,
      validate
        { title := "Edge Esmeralda Hypercert"
          description := "A description of at least ten characters."
          link := "https://example.com"
          cardImage := "https://example.com/card.png"
          logo := "https://example.com/logo.png"
          banner := "https://example.com/banner.png"
          tags := "impact, climate"
          projectDates := ⟨0, 1⟩
          workStartDate := 0
          workEndDate := 0
          contributors := ""
          acceptTerms := true
          confirmContributorsPermission := true } = Except.error errs ∧
      (⟨"contributors", contributorsMessage⟩ : FieldError) ∈ errs :=
  validate_empty_contributors_fails _ rfl

/-- C10: two validated values agreeing on every field other than
`workStartDate` and `workEndDate` produce the same metadata object — the
separate work date fields have no influence on the transform, whose
timeframes come solely from `projectDates`. -/
theorem toMetadata_ignores_work_dates (v1 v2 : Validated) (badges : List String)
    (ht : v1.title = v2.title) (hd : v1.description = v2.description)
    (hl : v1.link = v2.link) (hci : v1.cardImage = v2.cardImage)
    (hlo : v1.logo = v2.logo) (hb : v1.banner = v2.banner)
    (htag : v1.tags = v2.tags) (hpd : v1.projectDates = v2.projectDates)
    (hco : v1.contributors = v2.contributors)
    (hat : v1.acceptTerms = v2.acceptTerms)
    (hcp : v1.confirmContributorsPermission = v2.confirmContributorsPermission) :
    toMetadata v1 badges = toMetadata v2 badges := by
  unfold toMetadata
  rw [ht, hd, hl, hci, hpd, hco]

/-- Validated values of the work-date-insensitivity witness scenario. -/
def workDatesVariantA : Validated :=
  { title := "Edge Esmeralda Hypercert"
    description := "A description of at least ten characters."
    link := "https://example.com"
    cardImage := "https://example.com/card.png"
    logo := "https://example.com/logo.png"
    banner := "https://example.com/banner.png"
    tags := "impact, climate"
    projectDates := ⟨1717286400000, 1719705600000⟩
    workStartDate := 1717286400000
    workEndDate := 1719705600000
    contributors := [addrA, addrB]
    acceptTerms := true
    confirmContributorsPermission := true }

/-- The same validated values with different work start and end dates. -/
def workDatesVariantB : Validated :=
  { workDatesVariantA with
    workStartDate := 0
    workEndDate := 86400000 }

/-- C10 (witness): the two variants map to the same metadata object. -/
theorem toMetadata_ignores_work_dates_witness :
    toMetadata workDatesVariantA ["Edge Esmeralda", "Edge City"] =
      toMetadata workDatesVariantB ["Edge Esmeralda", "Edge City"] :=
  toMetadata_ignores_work_dates workDatesVariantA workDatesVariantB
    ["Edge Esmeralda", "Edge City"]
    rfl rfl rfl rfl rfl rfl rfl rfl rfl rfl rfl

end VoiceDeck
